import Mathlib

/-!
Verification development for an excerpt of a VS Code workbench layer:

* `BaseConfigurationResolverService` (configuration-variable resolver that
  substitutes input/command tokens via interactive UI),
* `McpConnectionState` (connection-state model for MCP tool-provider servers),
* `PromptFilesLocator` (glob-based locator for prompt files).

Stateful/asynchronous TypeScript code is shallowly embedded as pure Lean
functions with explicit state passing (the workspace-scoped storage is the
state) and an explicit event trace recording the observable effects
(interactive prompts, command executions, interpolation passes).
-/

namespace VSCode

/-! ## MCP connection state (mcpTypes.ts) -/

/-- Embeds the `Kind` enum inside the `McpConnectionState` namespace of
`mcpTypes.ts`: `Stopped`, `Starting`, `Running`, `Error`. -/
inductive McpConnectionState.Kind where
  | stopped
  | starting
  | running
  | error
deriving DecidableEq

/-- Embeds the `McpConnectionState` discriminated union of `mcpTypes.ts`:
the `Stopped`, `Starting` and `Running` variants carry only their `state`
discriminant, the `Error` variant additionally carries a `message`. -/
inductive McpConnectionState where
  | stopped
  | starting
  | running
  | error (message : String)
deriving DecidableEq

namespace McpConnectionState

/-- The `state` discriminant of a connection-state value. -/
def state : McpConnectionState → Kind
  | .stopped => .stopped
  | .starting => .starting
  | .running => .running
  | .error _ => .error

/-- Embeds `McpConnectionState.toString`: the switch over `s.state` in
`mcpTypes.ts`. The localized message for the error case interpolates the
message into the pattern used by the source. In the source a `default`
branch calls `assertNever`; in this embedding the four constructors of
`McpConnectionState` are matched exhaustively, so no such branch exists. -/
def toString : McpConnectionState → String
  | .stopped => "Stopped"
  | .starting => "Starting"
  | .running => "Running"
  | .error message => "Error " ++ message

/-- Embeds `McpConnectionState.canBeStarted`:
`(s) => s === Kind.Error || s === Kind.Stopped`. -/
def canBeStarted (s : Kind) : Bool :=
  s == Kind.error || s == Kind.stopped

end McpConnectionState

/-! ## Configuration resolver data model (part of `configurationResolver.ts`,
usage visible in the excerpt) -/

/-- Embeds the option entries of a `pickString` configured input: each is
either a plain string or an object with a `value` (possibly missing, which
the source treats as a missing required attribute) and an optional `label`. -/
inductive PickOption where
  | str (s : String)
  | obj (value : Option String) (label : Option String)
deriving DecidableEq

/-- Embeds `ConfiguredInput` with the attributes that
`BaseConfigurationResolverService.showUserInput` reads: `id`, `type`,
`description`, `default`, `password`, `options`, `command` and `args`
(the `args` payload is opaque to the resolver and is modelled as an
opaque optional string). -/
structure ConfiguredInput where
  id : String
  type : String
  description : Option String
  default : Option String
  password : Option Bool
  options : Option (List PickOption)
  command : Option String
  args : Option String
deriving DecidableEq

/-- Embeds the `IInputOptions` object built for `quickInputService.input`:
the fields set by `showUserInput` (`prompt`, `ignoreFocusLost`, `value`,
`password`). -/
structure InputOptions where
  prompt : Option String
  ignoreFocusLost : Bool
  value : Option String
  password : Bool
deriving DecidableEq

/-- Embeds the `PickStringItem` quick-pick items built by `showUserInput`
(`label`, optional `description`, `value`). -/
structure PickItem where
  label : String
  description : Option String
  value : String
deriving DecidableEq

/-- The kinds of `VariableError` used by the excerpt (`VariableKind.Input`
and `VariableKind.Command` from `configurationResolver.ts`). -/
inductive VariableKind where
  | input
  | command
deriving DecidableEq

/-- Embeds `VariableError`: an error carrying a `VariableKind` and a
message. Message texts are abbreviated from the localized source texts;
the claims only depend on the kind. -/
structure VariableError where
  kind : VariableKind
  message : String
deriving DecidableEq

/-- Result of `commandService.executeCommand` as observed by the resolver:
a string, `undefined`, `null`, or any other (non-string, non-nullish)
value. -/
inductive CmdResult where
  | str (s : String)
  | undef
  | nullVal
  | other
deriving DecidableEq

/-- Result value of `showUserInput` (a `string`, `undefined`, or `null`:
the command-typed input forwards a nullish command result unchanged). -/
inductive UIVal where
  | str (s : String)
  | undef
  | nullVal
deriving DecidableEq

/-- Modelled from the spec: a replacement token parsed out of a
configuration object by `ConfigurationResolverExpression`
(`configurationResolverExpression.ts`, not part of the excerpt; the spec
describes the flow as "parse tokens"). Only the `name` (for example
`input` or `command`) and the `arg` after the colon are consumed by the
code in the excerpt. -/
structure Replacement where
  name : String
  arg : String
deriving DecidableEq

/-- A configuration object, abstracted to what the resolver observes: the
list of its unresolved replacement tokens in order of appearance, plus an
opaque payload standing for the rest of the object. -/
structure Config where
  replacements : List Replacement
  data : String
deriving DecidableEq

/-- Modelled from the spec: `ConfigurationResolverExpression.parse`
followed by `expr.unresolved()` yields the unresolved replacement tokens
of a configuration object in their order of appearance. -/
def parseUnresolved (config : Config) : List Replacement :=
  config.replacements

/-- A workspace folder (`IWorkspaceFolderData`), reduced to the fields the
resolver uses. -/
structure Folder where
  name : String
  uri : String
deriving DecidableEq

/-- Embeds the `ConfigurationTarget` enum values distinguished by
`resolveInputs` (`USER`, `USER_REMOTE`, `WORKSPACE`; every other value
falls into the `default` branch of the switch, represented by
`workspaceFolder`, `application`, `userLocal`, `defaultTarget` and
`memory`). -/
inductive ConfigurationTarget where
  | application
  | user
  | userLocal
  | userRemote
  | workspace
  | workspaceFolder
  | defaultTarget
  | memory
deriving DecidableEq

/-- A configuration section value as inspected by `resolveInputs`: only
its optional `inputs` array is consumed. -/
structure SectionValue where
  inputs : Option (List ConfiguredInput)
deriving DecidableEq

/-- Embeds the part of `configurationService.inspect` results read by
`resolveInputs`: the per-target values of the section. -/
structure InspectResult where
  userValue : Option SectionValue
  userRemoteValue : Option SectionValue
  workspaceValue : Option SectionValue
  workspaceFolderValue : Option SectionValue
deriving DecidableEq

/-- The map of resolved variables (`Map<string, string>` in the source;
values are `Option String` because a `null` command result is stored
unchanged by the source). Insertion order is preserved, as for a JS
`Map`. -/
abbrev RMap := List (String × Option String)

/-- Observable effects of the resolution flow, recorded as a trace:
an interpolation pass (`resolveAnyAsync`, with its optional map of
resolved variables), a user prompt (tagged with whether it was issued
through `userInputAccessQueue`), and the direct execution of a
`command`-type variable (which the source does not route through the
queue). -/
inductive UIPrompt where
  | promptString (opts : InputOptions)
  | pickString (picks : List PickItem)
  | commandInput (command : String) (args : Option String)
deriving DecidableEq

inductive Event where
  | resolveAnyCall (extra : Option RMap)
  | prompt (queued : Bool) (p : UIPrompt)
  | commandVarExec (commandId : String)
deriving DecidableEq

/-- The workspace-scoped key-value storage (`storageService`, scope
`WORKSPACE`): a map from storage keys to the JSON-parsed contents stored
under them. A key that is absent, or whose contents fail to parse as a
list of string pairs (the `catch`-and-ignore branch of `readInputLru`),
is `none`. -/
def Store := String → Option (List (String × String))

/-- The environment of services the resolver is constructed with, as pure
oracles. `resolveAnyAsync` is modelled from the spec: it is inherited
from `AbstractVariableResolverService` (`variableResolver.ts`, not part
of the excerpt) and resolves all non-interactive and contributed
variables, optionally applying a map of already-resolved variables
("reinterpolate" in the spec). -/
structure ResolverEnv where
  resolveAnyAsync : Option Folder → Config → Option RMap → Config
  executeCommandVariable : String → Config → CmdResult
  executeCommandInput : String → Option String → CmdResult
  inputResponse : InputOptions → Option String
  pickResponse : List PickItem → Option Nat
  workbenchEmpty : Bool
  inspect : String → Option String → Option InspectResult
  getValue : String → Option String → Option SectionValue

/-! ## The last-picked-input LRU cache -/

/-- Embeds the constant `LAST_INPUT_STORAGE_KEY = 'configResolveInputLru'`. -/
def LAST_INPUT_STORAGE_KEY : String := "configResolveInputLru"

/-- Embeds the constant `LAST_INPUT_CACHE_SIZE = 5`. -/
def LAST_INPUT_CACHE_SIZE : Nat := 5

/-- Modelled from the spec: `LRUCache` from `base/common/map.ts` (not part
of the excerpt; the spec says "cache last-picked values"). Entries are
kept oldest first; `set` re-inserts the key as most recent and trims the
oldest entries down to the capacity `limit`. -/
structure LRUCacheModel where
  limit : Nat
  entries : List (String × String)
deriving DecidableEq

namespace LRUCacheModel

/-- Look up the value stored for a key. (The source `get` also touches the
entry as most-recently-used; the touch is unobservable here because every
persisted cache is written through `set` of the same key.) -/
def get (c : LRUCacheModel) (k : String) : Option String :=
  (c.entries.find? (fun p => p.1 = k)).map (fun p => p.2)

/-- Insert or update a key as the most recent entry, then trim the oldest
entries so that at most `limit` remain. -/
def set (c : LRUCacheModel) (k v : String) : LRUCacheModel :=
  let appended := (c.entries.filter (fun p => ¬ (p.1 = k))) ++ [(k, v)]
  ⟨c.limit, appended.drop (appended.length - c.limit)⟩

/-- Serialization to the JSON entry list (`toJSON`). -/
def toJSON (c : LRUCacheModel) : List (String × String) :=
  c.entries

/-- Deserialization (`fromJSON`): the source clears the cache and replays
`set` for each stored pair, so the capacity is enforced on load as well. -/
def fromJSON (limit : Nat) (data : List (String × String)) : LRUCacheModel :=
  data.foldl (fun c p => c.set p.1 p.2) ⟨limit, []⟩

end LRUCacheModel

/-- Embeds `readInputLru`: reads `LAST_INPUT_STORAGE_KEY` from
workspace-scoped storage and loads it into a fresh `LRUCache` of capacity
`LAST_INPUT_CACHE_SIZE`; absent or unparseable contents leave the cache
empty. -/
def readInputLru (st : Store) : LRUCacheModel :=
  match st LAST_INPUT_STORAGE_KEY with
  | some data => LRUCacheModel.fromJSON LAST_INPUT_CACHE_SIZE data
  | none => ⟨LAST_INPUT_CACHE_SIZE, []⟩

/-- Embeds `storeInputLru`: serializes the cache and stores it under
`LAST_INPUT_STORAGE_KEY` in workspace-scoped storage. -/
def storeInputLru (lru : LRUCacheModel) (st : Store) : Store :=
  fun k => if k = LAST_INPUT_STORAGE_KEY then some lru.toJSON else st k

/-! ## `resolveInputs` -/

/-- JS truthiness of an optional string (`!section` is true for both
`undefined` and the empty string). -/
def strTruthy : Option String → Bool
  | some s => s ≠ ""
  | none => false

/-- Embeds `resolveInputs`: returns `undefined` for an empty workbench or
a falsy section name; otherwise inspects the configuration section (with
the folder URI as resource override) and picks the `inputs` array of the
value matching the requested target, falling back to
`configurationService.getValue` when the inspect result carries no
values. -/
def resolveInputs (env : ResolverEnv) (folder : Option Folder)
    (sectionName : Option String) (target : Option ConfigurationTarget) :
    Option (List ConfiguredInput) :=
  if env.workbenchEmpty || !(strTruthy sectionName) then
    none
  else
    let overrides : Option String := folder.map (fun f => f.uri)
    let s := sectionName.getD ""
    match env.inspect s overrides with
    | some r =>
      if r.userValue.isSome || r.workspaceValue.isSome ||
          r.workspaceFolderValue.isSome || r.userRemoteValue.isSome then
        match target with
        | some .user => r.userValue.bind (fun v => v.inputs)
        | some .userRemote => r.userRemoteValue.bind (fun v => v.inputs)
        | some .workspace => r.workspaceValue.bind (fun v => v.inputs)
        | _ => r.workspaceFolderValue.bind (fun v => v.inputs)
      else
        (env.getValue s overrides).bind (fun v => v.inputs)
    | none =>
      (env.getValue s overrides).bind (fun v => v.inputs)

/-! ## `showUserInput` -/

/-- Modelled from the spec: `userInputAccessQueue.queue(task)` runs the
UI task through the single serial `Queue` (`base/common/async.ts`, not
part of the excerpt; the spec says "queue single-flight prompts"). The
prompt is recorded in the trace as a queued prompt event. -/
def queuedPromptEvent (p : UIPrompt) : Event :=
  Event.prompt true p

/-- Whether a `pickString` option carries a usable value
(`Types.isString(pickOption) || Types.isString(pickOption.value)`). -/
def pickOptionHasValue : PickOption → Bool
  | .str _ => true
  | .obj v _ => v.isSome

/-- The `value` of a validated `pickString` option. -/
def pickOptionValue : PickOption → String
  | .str s => s
  | .obj v _ => v.getD ""

/-- The optional `label` of a `pickString` option. -/
def pickOptionLabel : PickOption → Option String
  | .str _ => none
  | .obj _ l => l

/-- Embeds the pick-item construction loop of the `pickString` branch:
the default option (value equal to a truthy `default`) is unshifted with
a `(Default)` description; with a falsy `default`, the previously picked
value is unshifted; all other options are pushed in order. -/
def buildPicks (opts : List PickOption) (dflt : Option String)
    (previousPickedValue : Option String) : List PickItem :=
  opts.foldl (fun picks o =>
    let value := pickOptionValue o
    let itemLabel := match pickOptionLabel o with
      | some l => if l ≠ "" then l ++ ": " ++ value else value
      | none => value
    if dflt = some value then
      ⟨itemLabel, some "(Default)", value⟩ :: picks
    else if (dflt = none ∨ dflt = some "") ∧ previousPickedValue = some value then
      ⟨itemLabel, none, value⟩ :: picks
    else
      picks ++ [⟨itemLabel, none, value⟩]) []

/-- Embeds `showUserInput(section, variable, inputInfos)`. Returns the
result value (or a thrown `VariableError`), the storage after any
`storeInputLru` write-back, and the trace of prompts issued. -/
def showUserInput (env : ResolverEnv) (st : Store) (sectionName varName : String)
    (inputInfos : Option (List ConfiguredInput)) :
    Except VariableError UIVal × Store × List Event :=
  match inputInfos with
  | none =>
    (.error ⟨.input, "must be defined in an inputs section"⟩, st, [])
  | some infos =>
    match (infos.filter (fun i => i.id = varName)).getLast? with
    | none =>
      (.error ⟨.input, "undefined input variable"⟩, st, [])
    | some info =>
      let defaultValueMap := readInputLru st
      let defaultValueKey := sectionName ++ "." ++ varName
      let previousPickedValue := defaultValueMap.get defaultValueKey
      if info.type = "promptString" then
        match info.description with
        | none => (.error ⟨.input, "missing attribute description"⟩, st, [])
        | some desc =>
          let v1 := match info.default with
            | some d => if d ≠ "" then some d else previousPickedValue
            | none => previousPickedValue
          let inputOptions : InputOptions :=
            ⟨some desc, true, v1, info.password = some true⟩
          let ev := queuedPromptEvent (.promptString inputOptions)
          match env.inputResponse inputOptions with
          | some s =>
            (.ok (.str s),
             storeInputLru (defaultValueMap.set defaultValueKey s) st, [ev])
          | none => (.ok .undef, st, [ev])
      else if info.type = "pickString" then
        match info.description with
        | none => (.error ⟨.input, "missing attribute description"⟩, st, [])
        | some _ =>
          match info.options with
          | none => (.error ⟨.input, "missing attribute options"⟩, st, [])
          | some opts =>
            if opts.any (fun o => !(pickOptionHasValue o)) then
              (.error ⟨.input, "missing attribute value"⟩, st, [])
            else
              let picks := buildPicks opts info.default previousPickedValue
              let ev := queuedPromptEvent (.pickString picks)
              match (env.pickResponse picks).bind (fun i => picks.get? i) with
              | some item =>
                (.ok (.str item.value),
                 storeInputLru (defaultValueMap.set defaultValueKey item.value) st,
                 [ev])
              | none => (.ok .undef, st, [ev])
      else if info.type = "command" then
        match info.command with
        | none => (.error ⟨.input, "missing attribute command"⟩, st, [])
        | some cmd =>
          let ev := queuedPromptEvent (.commandInput cmd info.args)
          match env.executeCommandInput cmd info.args with
          | .str s => (.ok (.str s), st, [ev])
          | .undef => (.ok .undef, st, [ev])
          | .nullVal => (.ok .nullVal, st, [ev])
          | .other =>
            (.error ⟨.input, "command did not return a string"⟩, st, [ev])
      else
        (.error ⟨.input, "unknown input type"⟩, st, [])

/-! ## `resolveWithInteraction` and `resolveWithInteractionReplace` -/

/-- Association-list lookup standing for a JS dictionary access
(`variableToCommandMap[arg]`). -/
def dictGet (m : List (String × String)) (k : String) : Option String :=
  (m.find? (fun p => p.1 = k)).map (fun p => p.2)

/-- Embeds `Map.set`: updates the value in place when the key is present,
otherwise appends the pair, preserving insertion order. -/
def mapSet (m : RMap) (k : String) (v : Option String) : RMap :=
  if m.any (fun p => p.1 = k) then
    m.map (fun p => if p.1 = k then (k, v) else p)
  else
    m ++ [(k, v)]

/-- The map key stored for a resolved variable:
`(type === 'command' ? 'command:' : 'input:') + arg`. -/
def varKey (r : Replacement) : String :=
  (if r.name = "command" then "command:" else "input:") ++ r.arg

/-- The input/command variables of a configuration, in order of
appearance (the filter in `resolveWithInteraction`). -/
def interactiveVars (config : Config) : List Replacement :=
  (parseUnresolved config).filter (fun r => r.name = "input" || r.name = "command")

/-- Embeds one iteration of the variable loop of
`resolveWithInteraction`. The result is `ok (some v)` for a resolved
value (`v = none` models a stored `null`), `ok none` when the variable's
result was `undefined` (cancellation), and `error` for a thrown
`VariableError`. -/
def resolveOneVariable (env : ResolverEnv) (folder : Option Folder)
    (sectionName : Option String) (target : Option ConfigurationTarget)
    (config : Config) (variableToCommandMap : Option (List (String × String)))
    (st : Store) (r : Replacement) :
    Except VariableError (Option (Option String)) × Store × List Event :=
  if r.name = "command" then
    let fromMap := variableToCommandMap.bind (fun m => dictGet m r.arg)
    let commandId := match fromMap with
      | some c => if c ≠ "" then c else r.arg
      | none => r.arg
    let ev := Event.commandVarExec commandId
    match env.executeCommandVariable commandId config with
    | .str s => (.ok (some (some s)), st, [ev])
    | .undef => (.ok none, st, [ev])
    | .nullVal => (.ok (some none), st, [ev])
    | .other => (.error ⟨.command, "command did not return a string"⟩, st, [ev])
  else if r.name = "input" then
    let infos := resolveInputs env folder sectionName target
    match showUserInput env st (sectionName.getD "undefined") r.arg infos with
    | (.error e, st', evs) => (.error e, st', evs)
    | (.ok (.str s), st', evs) => (.ok (some (some s)), st', evs)
    | (.ok .undef, st', evs) => (.ok none, st', evs)
    | (.ok .nullVal, st', evs) => (.ok (some none), st', evs)
  else
    (.ok none, st, [])

/-- The variable loop of `resolveWithInteraction`: processes each
variable in order, aborting with `ok none` on the first cancellation and
with `error` on the first thrown error, otherwise accumulating the
resolved-variable map. -/
def interactionLoop (env : ResolverEnv) (folder : Option Folder)
    (sectionName : Option String) (target : Option ConfigurationTarget)
    (config : Config) (variableToCommandMap : Option (List (String × String))) :
    List Replacement → RMap → Store → List Event →
    Except VariableError (Option RMap) × Store × List Event
  | [], acc, st, evs => (.ok (some acc), st, evs)
  | r :: rest, acc, st, evs =>
    match resolveOneVariable env folder sectionName target config
        variableToCommandMap st r with
    | (.error e, st', ev') => (.error e, st', evs ++ ev')
    | (.ok none, st', ev') => (.ok none, st', evs ++ ev')
    | (.ok (some v), st', ev') =>
      interactionLoop env folder sectionName target config variableToCommandMap
        rest (mapSet acc (varKey r) v) st' (evs ++ ev')

/-- Embeds `resolveWithInteraction(folder, config, section,
variableToCommandMap, target)`: collects the input/command variables in
order of appearance, returns the empty map immediately when there are
none, and otherwise runs the interaction loop. `ok none` models the
`undefined` return after a cancellation. -/
def resolveWithInteraction (env : ResolverEnv) (st : Store)
    (folder : Option Folder) (config : Config) (sectionName : Option String)
    (variableToCommandMap : Option (List (String × String)))
    (target : Option ConfigurationTarget) :
    Except VariableError (Option RMap) × Store × List Event :=
  let vars := interactiveVars config
  if vars.isEmpty then
    (.ok (some []), st, [])
  else
    interactionLoop env folder sectionName target config variableToCommandMap
      vars [] st []

/-- Embeds `resolveWithInteractionReplace(folder, config, section,
variables, target)`: first `resolveAnyAsync` without a variable map, then
`resolveWithInteraction` on the result; `null` (modelled `ok none`) when
the interaction was cancelled; a second `resolveAnyAsync` with the
resolved map when it is non-empty; the config from the first step
otherwise. -/
def resolveWithInteractionReplace (env : ResolverEnv) (st : Store)
    (folder : Option Folder) (config : Config) (sectionName : Option String)
    (variableToCommandMap : Option (List (String × String)))
    (target : Option ConfigurationTarget) :
    Except VariableError (Option Config) × Store × List Event :=
  let config1 := env.resolveAnyAsync folder config none
  match resolveWithInteraction env st folder config1 sectionName
      variableToCommandMap target with
  | (.error e, st', evs) =>
    (.error e, st', Event.resolveAnyCall none :: evs)
  | (.ok none, st', evs) =>
    (.ok none, st', Event.resolveAnyCall none :: evs)
  | (.ok (some m), st', evs) =>
    if m.length > 0 then
      (.ok (some (env.resolveAnyAsync folder config1 (some m))), st',
       Event.resolveAnyCall none :: (evs ++ [Event.resolveAnyCall (some m)]))
    else
      (.ok (some config1), st', Event.resolveAnyCall none :: evs)

/-! ## Prompt files locator

The implementation (`promptSyntax/utils/promptFilesLocator.ts` and
`platform/prompts/common/config.ts`) is not part of the excerpt; only its
unit tests are. The definitions below are modelled from the spec: "a
glob-based locator for prompt files across workspace folders", with the
behaviour pinned down by the unit tests in the excerpt. -/

/-- Whether the second character list starts with the first. -/
def leadMatch : List Char → List Char → Bool
  | [], _ => true
  | _ :: _, [] => false
  | a :: as, b :: bs => a = b && leadMatch as bs

/-- Suffix test on strings (structural stand-in for `String.endsWith`). -/
def strEndsWith (s t : String) : Bool :=
  leadMatch t.data.reverse s.data.reverse

/-- Initial-segment test on strings (structural stand-in for
`String.startsWith`). -/
def strStartsWith (s t : String) : Bool :=
  leadMatch t.data s.data

/-- Splits a path into its `/`-separated segments (structural stand-in
for `String.splitOn`). -/
def splitSegsAux : List Char → List Char → List String
  | [], cur => [⟨cur.reverse⟩]
  | c :: cs, cur =>
    if c = '/' then ⟨cur.reverse⟩ :: splitSegsAux cs []
    else splitSegsAux cs (c :: cur)

def splitSegs (s : String) : List String :=
  splitSegsAux s.data []

/-- Matches one glob segment (literal characters and `*` wildcards)
against one path segment, character by character; `*` matches any run of
characters, so it matches when the rest of the pattern matches some
suffix of the segment. -/
def segMatch : List Char → List Char → Bool
  | [], s => s.isEmpty
  | p :: ps, s =>
    if p = '*' then (List.tails s).any (fun t => segMatch ps t)
    else
      match s with
      | [] => false
      | c :: cs => p = c && segMatch ps cs

/-- Matches a list of glob segments against a list of path segments; a
`**` segment matches zero or more path segments, so it matches when the
rest of the pattern matches some suffix of the path. -/
def globSegs : List String → List String → Bool
  | [], s => s.isEmpty
  | p :: ps, s =>
    if p = "**" then (List.tails s).any (fun t => globSegs ps t)
    else
      match s with
      | [] => false
      | seg :: ss => segMatch p.data seg.data && globSegs ps ss

/-- Modelled from the spec: the glob match used by the locator (the
matching engine is an external library). Patterns and paths are compared
segment-wise after splitting on `/`. -/
def globMatch (pat path : String) : Bool :=
  globSegs (splitSegs pat) (splitSegs path)

/-- Whether a file name is a prompt file (ends in `.prompt.md`). -/
def isPromptFile (f : String) : Bool :=
  strEndsWith f ".prompt.md"

/-- Modelled from the spec:
`PromptFilesLocator.findAllMatchingPromptFiles` for a single-root
workspace. Given the workspace folder root, the prompt-locations
configuration object (glob pattern to enabled flag) and the
folder-relative paths of the files in the workspace, it returns the
files that match an enabled glob source pattern (relative patterns are
matched against the folder-relative path, absolute patterns against the
absolute path) and are prompt files. -/
def findAllMatchingPromptFiles (folderRoot : String)
    (config : List (String × Bool)) (files : List String) : List String :=
  files.filter (fun f =>
    isPromptFile f &&
    config.any (fun p =>
      p.2 && (globMatch p.1 f || globMatch p.1 (folderRoot ++ "/" ++ f))))

/-- Strips exactly one trailing slash from a configured source path. -/
def stripTrailingSlash (p : String) : String :=
  if strEndsWith p "/" then ⟨p.data.dropLast⟩ else p

/-- Whether a file path lies under a source directory path. -/
def isUnder (dir f : String) : Bool :=
  strStartsWith f (stripTrailingSlash dir ++ "/")

/-- Modelled from the spec: the locator always considers the default
source location `.github/prompts` unless the configuration object maps it
explicitly (the tests list its files without any configuration entry for
it, and exclude them when it is mapped to `false`). -/
def withGithubDefault (config : List (String × Bool)) : List (String × Bool) :=
  if config.any (fun p => p.1 = ".github/prompts") then config
  else config ++ [(".github/prompts", true)]

/-- Resolves the configured source paths: an absolute path stands for
itself; a relative path is resolved against every workspace folder. The
enabled flag of each configuration entry is carried along. -/
def resolveSourcePaths (folders : List String)
    (config : List (String × Bool)) : List (String × Bool) :=
  (withGithubDefault config).flatMap (fun p =>
    if strStartsWith p.1 "/" then [p]
    else folders.map (fun w => (stripTrailingSlash w ++ "/" ++ p.1, p.2)))

/-- Modelled from the spec: `PromptFilesLocator.listFiles` returns the
prompt files that lie under a source path whose configuration value is
`true`; source paths mapped to `false` contribute nothing. `files` are
the absolute paths of the files on disk. -/
def listFiles (folders : List String) (config : List (String × Bool))
    (files : List String) : List String :=
  files.filter (fun f =>
    isPromptFile f &&
    (resolveSourcePaths folders config).any (fun p => p.2 && isUnder p.1 f))

/-! ## Fixtures from the PromptFilesLocator unit tests -/

/-- The workspace folder of the single-root wild-card tests. -/
def c7Root : String := "/Users/legomushroom/repos/vscode"

/-- The folder-relative files of the wild-card fixture. -/
def c7Files : List String :=
  ["deps/text/my.prompt.md",
   "deps/text/nested/specific.prompt.md",
   "deps/text/nested/unspecific1.prompt.md",
   "deps/text/nested/unspecific2.prompt.md",
   "deps/text/nested/readme.md"]

/-- The result the wild-card tests expect: every prompt file, and never
`readme.md`. -/
def c7Expected : List String :=
  ["deps/text/my.prompt.md",
   "deps/text/nested/specific.prompt.md",
   "deps/text/nested/unspecific1.prompt.md",
   "deps/text/nested/unspecific2.prompt.md"]

/-- The workspace folders of the `listFiles` object-config fixture. -/
def c8Folders : List String := ["/Users/legomushroom/repos/vscode"]

/-- The configuration of the test with a disabled `.github/prompts`
location. -/
def c8Config : List (String × Bool) :=
  [("/Users/legomushroom/repos/prompts", true),
   ("/tmp/prompts/", true),
   ("/absolute/path/prompts", false),
   (".copilot/prompts", true),
   (".github/prompts", false)]

/-- The same configuration without the `.github/prompts` entry (the
core-logic test). -/
def c8ConfigEnabled : List (String × Bool) :=
  [("/Users/legomushroom/repos/prompts", true),
   ("/tmp/prompts/", true),
   ("/absolute/path/prompts", false),
   (".copilot/prompts", true)]

/-- The files on disk in the `listFiles` fixtures. -/
def c8Files : List String :=
  ["/Users/legomushroom/repos/prompts/test.prompt.md",
   "/Users/legomushroom/repos/prompts/refactor-tests.prompt.md",
   "/tmp/prompts/translate.to-rust.prompt.md",
   "/absolute/path/prompts/some-prompt-file.prompt.md",
   "/Users/legomushroom/repos/vscode/.github/prompts/my.prompt.md",
   "/Users/legomushroom/repos/vscode/.github/prompts/your.prompt.md",
   "/Users/legomushroom/repos/vscode/.copilot/prompts/default.prompt.md"]

/-- Whether a trace event respects the single-flight queue discipline:
prompt events must be tagged as issued through `userInputAccessQueue`. -/
def eventQueued : Event → Bool
  | .prompt q _ => q
  | _ => true

/-! ## Concrete fixtures for the resolver witnesses -/

/-- A configured `promptString` input used by the concrete witnesses. -/
def wInfo : ConfiguredInput :=
  ⟨"who", "promptString", some "desc", none, none, none, none, none⟩

/-- A concrete environment: the quick input returns a value, commands
return strings, and the configuration section carries `wInfo` in its
`inputs` array. -/
def wEnv : ResolverEnv where
  resolveAnyAsync := fun _ c _ => c
  executeCommandVariable := fun _ _ => .str "cmdVal"
  executeCommandInput := fun _ _ => .str "inCmd"
  inputResponse := fun _ => some "typed"
  pickResponse := fun _ => none
  workbenchEmpty := false
  inspect := fun _ _ => none
  getValue := fun _ _ => some ⟨some [wInfo]⟩

/-- The same environment with the quick input cancelled (it resolves to
`undefined`). -/
def wEnvCancel : ResolverEnv :=
  { wEnv with inputResponse := fun _ => none }

/-- Empty workspace-scoped storage. -/
def wStore : Store := fun _ => none

/-- A configuration with one input variable followed by one command
variable. -/
def wConfig : Config :=
  ⟨[⟨"input", "who"⟩, ⟨"command", "doit"⟩], "cfg"⟩

/-- A `promptString` input whose explicit `default` attribute is the
empty string. -/
def c4Info : ConfiguredInput :=
  ⟨"login", "promptString", some "Enter", some "", none, none, none, none⟩

/-- Storage holding a previously entered value for the key
`launch.login`. -/
def c4Store : Store :=
  fun k =>
    if k = LAST_INPUT_STORAGE_KEY then some [("launch.login", "cached")]
    else none

/-- An input with an unknown type. -/
def c9Bad : ConfiguredInput :=
  ⟨"x", "weird", some "d", none, none, none, none, none⟩

/-- A `promptString` input missing its required `description`. -/
def c9NoDesc : ConfiguredInput :=
  ⟨"x", "promptString", none, none, none, none, none, none⟩

/-- A `pickString` input missing its required `options`. -/
def c9Pick : ConfiguredInput :=
  ⟨"x", "pickString", some "d", none, none, none, none, none⟩

/-- A `command`-typed input missing its required `command`. -/
def c9Cmd : ConfiguredInput :=
  ⟨"x", "command", some "d", none, none, none, none, none⟩

/-- The witness environment with no resolvable `inputs` section. -/
def wEnvNoInputs : ResolverEnv :=
  { wEnv with getValue := fun _ _ => none }

/-! ## Helper lemmas -/

theorem LRUCacheModel.limit_set (c : LRUCacheModel) (k v : String) :
    (c.set k v).limit = c.limit := rfl

theorem LRUCacheModel.length_set_le (c : LRUCacheModel) (k v : String) :
    ((c.set k v).entries).length ≤ c.limit := by
  unfold LRUCacheModel.set
  simp only [List.length_drop, List.length_append, List.length_cons,
    List.length_nil]
  omega

theorem LRUCacheModel.limit_foldl_set (data : List (String × String))
    (c : LRUCacheModel) :
    (data.foldl (fun c p => c.set p.1 p.2) c).limit = c.limit := by
  induction data generalizing c with
  | nil => rfl
  | cons p ps ih => simpa [List.foldl_cons] using ih (c.set p.1 p.2)

theorem find?_key_append_last (pre : List (String × String)) (k v : String)
    (h : ∀ p ∈ pre, ¬ (p.1 = k)) :
    (pre ++ [(k, v)]).find? (fun p => p.1 = k) = some (k, v) := by
  induction pre with
  | nil => simp [List.find?]
  | cons a l ih =>
    have ha : ¬ (a.1 = k) := h a (List.mem_cons_self a l)
    simp only [List.cons_append, List.find?]
    rw [decide_eq_false ha]
    exact ih (fun p hp => h p (List.mem_cons_of_mem a hp))

theorem LRUCacheModel.set_entries_shape (c : LRUCacheModel) (k v : String)
    (h : 1 ≤ c.limit) :
    ∃ pre, (c.set k v).entries = pre ++ [(k, v)] ∧
      ∀ p ∈ pre, ¬ (p.1 = k) := by
  unfold LRUCacheModel.set
  dsimp only
  set filtered := c.entries.filter (fun p => ¬ (p.1 = k)) with hf
  have hle : (filtered ++ [(k, v)]).length - c.limit ≤ filtered.length := by
    simp only [List.length_append, List.length_cons, List.length_nil]
    omega
  refine ⟨filtered.drop ((filtered ++ [(k, v)]).length - c.limit), ?_, ?_⟩
  · rw [List.drop_append_eq_append_drop]
    rw [Nat.sub_eq_zero_of_le hle, List.drop_zero]
  · intro p hp
    have hmem : p ∈ filtered := List.drop_subset _ _ hp
    have := List.mem_filter.mp (hf ▸ hmem)
    simpa using this.2

theorem LRUCacheModel.get_set_self (c : LRUCacheModel) (k v : String)
    (h : 1 ≤ c.limit) : (c.set k v).get k = some v := by
  obtain ⟨pre, hpre, hkeys⟩ := c.set_entries_shape k v h
  unfold LRUCacheModel.get
  rw [hpre, find?_key_append_last pre k v hkeys]
  rfl

theorem LRUCacheModel.fromJSON_append (n : Nat)
    (l : List (String × String)) (k v : String) :
    LRUCacheModel.fromJSON n (l ++ [(k, v)])
      = (LRUCacheModel.fromJSON n l).set k v := by
  simp [LRUCacheModel.fromJSON, List.foldl_append]

theorem readInputLru_limit (st : Store) :
    (readInputLru st).limit = LAST_INPUT_CACHE_SIZE := by
  unfold readInputLru
  cases st LAST_INPUT_STORAGE_KEY with
  | none => rfl
  | some data =>
    simpa [LRUCacheModel.fromJSON] using
      LRUCacheModel.limit_foldl_set data ⟨LAST_INPUT_CACHE_SIZE, []⟩

theorem LRUCacheModel.limit_fromJSON (n : Nat)
    (data : List (String × String)) :
    (LRUCacheModel.fromJSON n data).limit = n := by
  unfold LRUCacheModel.fromJSON
  simpa using LRUCacheModel.limit_foldl_set data ⟨n, []⟩

theorem readInputLru_store_get (st : Store) (k v : String) :
    (readInputLru (storeInputLru ((readInputLru st).set k v) st)).get k
      = some v := by
  have hread : readInputLru (storeInputLru ((readInputLru st).set k v) st)
      = LRUCacheModel.fromJSON LAST_INPUT_CACHE_SIZE
          (((readInputLru st).set k v).entries) := by
    unfold readInputLru storeInputLru
    simp [LRUCacheModel.toJSON]
  obtain ⟨pre, hpre, hkeys⟩ := (readInputLru st).set_entries_shape k v
    (by rw [readInputLru_limit st]; decide)
  rw [hread, hpre, LRUCacheModel.fromJSON_append]
  exact LRUCacheModel.get_set_self _ k v
    (by rw [LRUCacheModel.limit_fromJSON]; decide)

theorem showUserInput_events_queued (env : ResolverEnv) (st : Store)
    (sectionName varName : String) (infos : Option (List ConfiguredInput)) :
    ∀ e ∈ (showUserInput env st sectionName varName infos).2.2,
      eventQueued e = true := by
  unfold showUserInput
  dsimp only
  repeat'
    first
      | simp [queuedPromptEvent, eventQueued]
      | split

theorem resolveOneVariable_events_queued (env : ResolverEnv)
    (folder : Option Folder) (sectionName : Option String)
    (target : Option ConfigurationTarget) (config : Config)
    (vm : Option (List (String × String))) (st : Store) (r : Replacement) :
    ∀ e ∈ (resolveOneVariable env folder sectionName target config vm st r).2.2,
      eventQueued e = true := by
  unfold resolveOneVariable
  dsimp only
  repeat'
    first
      | simp [eventQueued]
      | (rename_i heq
         intro e he
         exact showUserInput_events_queued env st (sectionName.getD "undefined")
           r.arg (resolveInputs env folder sectionName target) e
           (by rw [heq]; exact he))
      | split

theorem interactionLoop_events_queued (env : ResolverEnv)
    (folder : Option Folder) (sectionName : Option String)
    (target : Option ConfigurationTarget) (config : Config)
    (vm : Option (List (String × String))) :
    ∀ (vars : List Replacement) (acc : RMap) (st : Store) (evs : List Event),
      (∀ e ∈ evs, eventQueued e = true) →
      ∀ e ∈ (interactionLoop env folder sectionName target config vm
          vars acc st evs).2.2, eventQueued e = true := by
  intro vars
  induction vars with
  | nil =>
    intro acc st evs hevs e he
    exact hevs e he
  | cons r rest ih =>
    intro acc st evs hevs e he
    unfold interactionLoop at he
    rcases hr : resolveOneVariable env folder sectionName target config vm st r
      with ⟨res, st1, ev1⟩
    rw [hr] at he
    have hev1 : ∀ x ∈ evs ++ ev1, eventQueued x = true := by
      intro x hx
      rcases List.mem_append.mp hx with h | h
      · exact hevs x h
      · exact resolveOneVariable_events_queued env folder sectionName target
          config vm st r x (by rw [hr]; exact h)
    cases res with
    | error e' => exact hev1 e (by simpa using he)
    | ok o =>
      cases o with
      | none => exact hev1 e (by simpa using he)
      | some v => exact ih _ _ _ hev1 e (by simpa using he)

theorem resolveWithInteraction_events_queued (env : ResolverEnv) (st : Store)
    (folder : Option Folder) (config : Config) (sectionName : Option String)
    (vm : Option (List (String × String)))
    (target : Option ConfigurationTarget) :
    ∀ e ∈ (resolveWithInteraction env st folder config sectionName vm
        target).2.2, eventQueued e = true := by
  unfold resolveWithInteraction
  dsimp only
  split
  · simp
  · exact interactionLoop_events_queued env folder sectionName target config vm
      (interactiveVars config) [] st [] (by simp)

theorem mapSet_of_not_mem (m : RMap) (k : String) (v : Option String)
    (h : ¬ k ∈ m.map Prod.fst) : mapSet m k v = m ++ [(k, v)] := by
  unfold mapSet
  rw [if_neg]
  intro hc
  obtain ⟨p, hp, hpk⟩ := List.any_eq_true.mp hc
  exact h (List.mem_map.mpr ⟨p, hp, of_decide_eq_true hpk⟩)

theorem interactionLoop_keys (env : ResolverEnv) (folder : Option Folder)
    (sectionName : Option String) (target : Option ConfigurationTarget)
    (config : Config) (vm : Option (List (String × String))) :
    ∀ (vars : List Replacement) (acc : RMap) (st : Store) (evs : List Event)
      (m : RMap) (st' : Store) (evs' : List Event),
      interactionLoop env folder sectionName target config vm vars acc st evs
        = (.ok (some m), st', evs') →
      (vars.map varKey).Nodup →
      (∀ r ∈ vars, varKey r ∉ acc.map Prod.fst) →
      m.map Prod.fst = acc.map Prod.fst ++ vars.map varKey := by
  intro vars
  induction vars with
  | nil =>
    intro acc st evs m st' evs' h _ _
    unfold interactionLoop at h
    simp only [Prod.mk.injEq, Except.ok.injEq, Option.some.injEq] at h
    rw [← h.1]
    simp
  | cons r rest ih =>
    intro acc st evs m st' evs' h hnd hdisj
    unfold interactionLoop at h
    rcases hr : resolveOneVariable env folder sectionName target config vm st r
      with ⟨res, st1, ev1⟩
    rw [hr] at h
    cases res with
    | error e' => simp at h
    | ok o =>
      cases o with
      | none => simp at h
      | some v =>
        dsimp only at h
        have hk : varKey r ∉ acc.map Prod.fst := hdisj r (List.mem_cons_self r rest)
        have hmap : mapSet acc (varKey r) v = acc ++ [(varKey r, v)] :=
          mapSet_of_not_mem _ _ _ hk
        have hnodup : (∀ x ∈ rest, ¬ varKey x = varKey r) ∧
            (List.map varKey rest).Nodup := by simpa using hnd
        have hdisj' : ∀ r' ∈ rest,
            varKey r' ∉ (mapSet acc (varKey r) v).map Prod.fst := by
          intro r' hr'
          rw [hmap]
          simp only [List.map_append, List.map_cons, List.map_nil,
            List.mem_append, List.mem_singleton]
          rintro (hin | heq)
          · exact hdisj r' (List.mem_cons_of_mem _ hr') hin
          · exact hnodup.1 r' hr' heq
        have hres := ih (mapSet acc (varKey r) v) st1 (evs ++ ev1) m st' evs' h
          hnodup.2 hdisj'
        rw [hmap] at hres
        simpa [List.map_append] using hres

/-! ## Claim theorems -/

/-- C6: `McpConnectionState.canBeStarted` returns `true` exactly when the
connection-state kind is `Stopped` or `Error`; for the `Starting` and
`Running` kinds it returns `false`. -/
theorem C6_canBeStarted_iff_stopped_or_error :
    (∀ k : McpConnectionState.Kind,
      McpConnectionState.canBeStarted k = true ↔
        (k = McpConnectionState.Kind.stopped ∨ k = McpConnectionState.Kind.error)) ∧
    McpConnectionState.canBeStarted McpConnectionState.Kind.starting = false ∧
    McpConnectionState.canBeStarted McpConnectionState.Kind.running = false := by
  refine ⟨fun k => ?_, rfl, rfl⟩
  cases k <;> simp [McpConnectionState.canBeStarted]

/-- C10: `McpConnectionState.toString` is total over the state type:
every value falls into exactly one of the four switch branches and yields
the corresponding string (with the message interpolated for the error
state), so the `assertNever` default branch is unreachable. -/
theorem C10_toString_total (s : McpConnectionState) :
    (s.state = McpConnectionState.Kind.stopped ∧ s.toString = "Stopped") ∨
    (s.state = McpConnectionState.Kind.starting ∧ s.toString = "Starting") ∨
    (s.state = McpConnectionState.Kind.running ∧ s.toString = "Running") ∨
    (∃ m, s = McpConnectionState.error m ∧
      s.state = McpConnectionState.Kind.error ∧ s.toString = "Error " ++ m) := by
  cases s with
  | stopped => exact Or.inl ⟨rfl, rfl⟩
  | starting => exact Or.inr (Or.inl ⟨rfl, rfl⟩)
  | running => exact Or.inr (Or.inr (Or.inl ⟨rfl, rfl⟩))
  | error m => exact Or.inr (Or.inr (Or.inr ⟨m, rfl, rfl, rfl⟩))

/-- C5: the last-picked-input cache holds at most `LAST_INPUT_CACHE_SIZE
= 5` entries: every read constructs a capacity-5 cache, every store
serializes the cache under the workspace-scoped key
`configResolveInputLru`, and any store performed after a `set` (which is
how every `promptString`/`pickString` resolution persists a value) leaves
at most 5 entries; consequently `showUserInput` either leaves the
persisted contents unchanged or leaves at most 5 entries. -/
theorem C5_lru_capacity :
    (LAST_INPUT_CACHE_SIZE = 5 ∧
      ∀ st : Store, (readInputLru st).limit = LAST_INPUT_CACHE_SIZE) ∧
    (∀ (st : Store) (k v : String),
      (storeInputLru ((readInputLru st).set k v) st) LAST_INPUT_STORAGE_KEY
        = some (((readInputLru st).set k v).toJSON) ∧
      (((readInputLru st).set k v).toJSON).length ≤ LAST_INPUT_CACHE_SIZE) ∧
    (∀ (env : ResolverEnv) (st : Store) (sectionName varName : String)
        (infos : Option (List ConfiguredInput)),
      ((showUserInput env st sectionName varName infos).2.1) LAST_INPUT_STORAGE_KEY
          = st LAST_INPUT_STORAGE_KEY ∨
      ∃ l, ((showUserInput env st sectionName varName infos).2.1) LAST_INPUT_STORAGE_KEY
          = some l ∧ l.length ≤ LAST_INPUT_CACHE_SIZE) := by
  have hbound : ∀ (st : Store) (k v : String),
      (((readInputLru st).set k v).toJSON).length ≤ LAST_INPUT_CACHE_SIZE := by
    intro st k v
    calc (((readInputLru st).set k v).toJSON).length
        ≤ (readInputLru st).limit := LRUCacheModel.length_set_le _ k v
      _ = LAST_INPUT_CACHE_SIZE := readInputLru_limit st
  have hstore : ∀ (st : Store) (k v : String),
      (storeInputLru ((readInputLru st).set k v) st) LAST_INPUT_STORAGE_KEY
        = some (((readInputLru st).set k v).toJSON) := by
    intro st k v
    simp [storeInputLru]
  refine ⟨⟨rfl, readInputLru_limit⟩, fun st k v => ⟨hstore st k v, hbound st k v⟩, ?_⟩
  intro env st sectionName varName infos
  unfold showUserInput
  dsimp only
  repeat'
    first
      | exact Or.inl rfl
      | exact Or.inr ⟨_, hstore st _ _, hbound st _ _⟩
      | split

/-- C7: `findAllMatchingPromptFiles` returns only files whose names end
in `.prompt.md`, for every enabled glob setting; in the single-root
fixture containing `deps/text/nested/readme.md` alongside prompt files,
`readme.md` is never in the result, even under the wildcard patterns
`**`, `**/*` and `**/*.md` that match it. -/
theorem C7_find_only_prompt_files :
    (∀ (root : String) (config : List (String × Bool)) (files : List String)
        (f : String), f ∈ findAllMatchingPromptFiles root config files →
        isPromptFile f = true) ∧
    (∀ pat ∈ (["**", "**/*", "**/*.md"] : List String),
        findAllMatchingPromptFiles c7Root [(pat, true)] c7Files = c7Expected ∧
        "deps/text/nested/readme.md" ∉
          findAllMatchingPromptFiles c7Root [(pat, true)] c7Files) := by
  constructor
  · intro root config files f hf
    have h := (List.mem_filter.mp hf).2
    rw [Bool.and_eq_true] at h
    exact h.1
  · intro pat hpat
    fin_cases hpat <;> exact ⟨by decide, by decide⟩

/-- C7 witness: a concrete application of `C7_find_only_prompt_files` at
the wildcard setting `**` and a member of the result. -/
theorem C7_find_only_prompt_files_witness :
    isPromptFile "deps/text/my.prompt.md" = true ∧
    (findAllMatchingPromptFiles c7Root [("**", true)] c7Files = c7Expected ∧
     "deps/text/nested/readme.md" ∉
       findAllMatchingPromptFiles c7Root [("**", true)] c7Files) :=
  ⟨C7_find_only_prompt_files.1 c7Root [("**", true)] c7Files
      "deps/text/my.prompt.md" (by decide),
   C7_find_only_prompt_files.2 "**" (by decide)⟩

/-- C8: a source path mapped to `false` in the prompt-locations
configuration never contributes files to `listFiles`: every returned file
lies under a source path mapped to `true`; in the fixtures, the files
under `/absolute/path/prompts` (mapped to `false`) and under
`.github/prompts` (when explicitly disabled) are excluded even though
they exist and are prompt files, while paths mapped to `true` still
contribute theirs. -/
theorem C8_disabled_paths_never_contribute :
    (∀ (folders : List String) (config : List (String × Bool))
        (files : List String) (f : String),
        f ∈ listFiles folders config files →
        ∃ p ∈ resolveSourcePaths folders config,
          p.2 = true ∧ isUnder p.1 f = true) ∧
    (listFiles c8Folders c8Config c8Files =
      ["/Users/legomushroom/repos/prompts/test.prompt.md",
       "/Users/legomushroom/repos/prompts/refactor-tests.prompt.md",
       "/tmp/prompts/translate.to-rust.prompt.md",
       "/Users/legomushroom/repos/vscode/.copilot/prompts/default.prompt.md"]) ∧
    ("/absolute/path/prompts/some-prompt-file.prompt.md" ∉
        listFiles c8Folders c8ConfigEnabled c8Files ∧
     "/Users/legomushroom/repos/vscode/.github/prompts/my.prompt.md" ∈
        listFiles c8Folders c8ConfigEnabled c8Files ∧
     "/tmp/prompts/translate.to-rust.prompt.md" ∈
        listFiles c8Folders c8ConfigEnabled c8Files) := by
  refine ⟨?_, by decide, by decide, by decide, by decide⟩
  intro folders config files f hf
  have h := (List.mem_filter.mp hf).2
  rw [Bool.and_eq_true] at h
  obtain ⟨p, hp, hpp⟩ := List.any_eq_true.mp h.2
  rw [Bool.and_eq_true] at hpp
  exact ⟨p, hp, hpp.1, hpp.2⟩

/-- C8 witness: a concrete application of
`C8_disabled_paths_never_contribute` at a member of the result. -/
theorem C8_disabled_paths_never_contribute_witness :
    ∃ p ∈ resolveSourcePaths c8Folders c8Config,
      p.2 = true ∧
      isUnder p.1 "/tmp/prompts/translate.to-rust.prompt.md" = true :=
  C8_disabled_paths_never_contribute.1 c8Folders c8Config c8Files
    "/tmp/prompts/translate.to-rust.prompt.md" (by decide)

/-- C1: `resolveWithInteractionReplace` first resolves non-interactive
and contributed variables via `resolveAnyAsync` (the first trace event,
with no variable map), then resolves the input/command variables of the
step-1 config in their order of appearance via `resolveWithInteraction`
(when the interactive keys are distinct, the resolved map lists them
exactly in order of appearance), and finally: when at least one
interactive variable was resolved it reinterpolates by calling
`resolveAnyAsync` again with the resolved map, and when the map is empty
it returns the step-1 config without a second interpolation pass. -/
theorem C1_replace_pipeline (env : ResolverEnv) (st : Store)
    (folder : Option Folder) (config : Config) (sectionName : Option String)
    (vm : Option (List (String × String))) (target : Option ConfigurationTarget)
    (m : RMap)
    (h : (resolveWithInteraction env st folder
        (env.resolveAnyAsync folder config none) sectionName vm target).1
          = .ok (some m)) :
    (0 < m.length →
      resolveWithInteractionReplace env st folder config sectionName vm target =
        (.ok (some (env.resolveAnyAsync folder
            (env.resolveAnyAsync folder config none) (some m))),
         (resolveWithInteraction env st folder
            (env.resolveAnyAsync folder config none) sectionName vm target).2.1,
         Event.resolveAnyCall none ::
           ((resolveWithInteraction env st folder
              (env.resolveAnyAsync folder config none) sectionName vm target).2.2
             ++ [Event.resolveAnyCall (some m)]))) ∧
    (m = [] →
      resolveWithInteractionReplace env st folder config sectionName vm target =
        (.ok (some (env.resolveAnyAsync folder config none)),
         (resolveWithInteraction env st folder
            (env.resolveAnyAsync folder config none) sectionName vm target).2.1,
         Event.resolveAnyCall none ::
           (resolveWithInteraction env st folder
              (env.resolveAnyAsync folder config none) sectionName vm target).2.2)) ∧
    (((interactiveVars (env.resolveAnyAsync folder config none)).map varKey).Nodup →
      m.map Prod.fst =
        (interactiveVars (env.resolveAnyAsync folder config none)).map varKey) := by
  rcases hw : resolveWithInteraction env st folder
      (env.resolveAnyAsync folder config none) sectionName vm target
    with ⟨res, st2, evs2⟩
  rw [hw] at h
  dsimp only at h
  subst h
  refine ⟨?_, ?_, ?_⟩
  · intro hm
    unfold resolveWithInteractionReplace
    dsimp only
    rw [hw]
    dsimp only
    rw [if_pos hm]
  · intro hm
    subst hm
    unfold resolveWithInteractionReplace
    dsimp only
    rw [hw]
    simp
  · intro hnd
    unfold resolveWithInteraction at hw
    dsimp only at hw
    split at hw
    · rename_i hv
      simp only [Prod.mk.injEq, Except.ok.injEq, Option.some.injEq] at hw
      rw [← hw.1]
      rw [List.isEmpty_iff.mp hv]
      simp
    · exact interactionLoop_keys env folder sectionName target
        (env.resolveAnyAsync folder config none) vm
        (interactiveVars (env.resolveAnyAsync folder config none)) [] st []
        m st2 evs2 hw hnd (by simp)

/-- C1 witness: on the concrete fixture the resolved map lists the
interactive variables in order of appearance. -/
theorem C1_replace_pipeline_witness :
    ([("input:who", some "typed"), ("command:doit", some "cmdVal")] : RMap).map
        Prod.fst
      = (interactiveVars (wEnv.resolveAnyAsync none wConfig none)).map varKey :=
  (C1_replace_pipeline wEnv wStore none wConfig (some "launch") none none
      [("input:who", some "typed"), ("command:doit", some "cmdVal")]
      (by rfl)).2.2 (by decide)

/-- C2: when any interactive variable resolution is cancelled (its result
is `undefined`), the variable loop stops at it: the result is
`undefined` (never a partially filled map, whatever had accumulated in
`acc`), the remaining variables contribute neither prompts nor values
(the outcome does not depend on `rest`), and
`resolveWithInteractionReplace` then returns `null`. -/
theorem C2_cancel_aborts :
    (∀ (env : ResolverEnv) (folder : Option Folder)
        (sectionName : Option String) (target : Option ConfigurationTarget)
        (config : Config) (vm : Option (List (String × String))) (st : Store)
        (r : Replacement) (rest : List Replacement) (acc : RMap)
        (evs : List Event),
      (resolveOneVariable env folder sectionName target config vm st r).1
          = .ok none →
      interactionLoop env folder sectionName target config vm (r :: rest) acc
          st evs
        = (.ok none,
           (resolveOneVariable env folder sectionName target config vm st r).2.1,
           evs ++ (resolveOneVariable env folder sectionName target config vm
              st r).2.2)) ∧
    (∀ (env : ResolverEnv) (st : Store) (folder : Option Folder)
        (config : Config) (sectionName : Option String)
        (vm : Option (List (String × String)))
        (target : Option ConfigurationTarget),
      (resolveWithInteraction env st folder
          (env.resolveAnyAsync folder config none) sectionName vm target).1
        = .ok none →
      (resolveWithInteractionReplace env st folder config sectionName vm
          target).1 = .ok none) := by
  constructor
  · intro env folder sectionName target config vm st r rest acc evs h
    rcases hr : resolveOneVariable env folder sectionName target config vm st r
      with ⟨res, st1, ev1⟩
    rw [hr] at h
    dsimp only at h
    subst h
    unfold interactionLoop
    rw [hr]
  · intro env st folder config sectionName vm target h
    rcases hw : resolveWithInteraction env st folder
        (env.resolveAnyAsync folder config none) sectionName vm target
      with ⟨res, st2, evs2⟩
    rw [hw] at h
    dsimp only at h
    subst h
    unfold resolveWithInteractionReplace
    dsimp only
    rw [hw]

/-- C2 witness: on the concrete fixture with a cancelled prompt, the
loop aborts at the first variable and the replace call returns `null`. -/
theorem C2_cancel_aborts_witness :
    interactionLoop wEnvCancel none (some "launch") none wConfig none
        (Replacement.mk "input" "who" :: [Replacement.mk "command" "doit"])
        [("seed", some "acc")] wStore []
      = (.ok none,
         (resolveOneVariable wEnvCancel none (some "launch") none wConfig none
            wStore (Replacement.mk "input" "who")).2.1,
         [] ++ (resolveOneVariable wEnvCancel none (some "launch") none wConfig
            none wStore (Replacement.mk "input" "who")).2.2) ∧
    (resolveWithInteractionReplace wEnvCancel wStore none wConfig
        (some "launch") none none).1 = .ok none :=
  ⟨C2_cancel_aborts.1 wEnvCancel none (some "launch") none wConfig none wStore
      (Replacement.mk "input" "who") [Replacement.mk "command" "doit"]
      [("seed", some "acc")] [] (by rfl),
   C2_cancel_aborts.2 wEnvCancel wStore none wConfig (some "launch") none none
      (by rfl)⟩

/-- C3: every prompt event in the trace of
`resolveWithInteractionReplace` is tagged as issued through the single
`userInputAccessQueue` (the `promptString` quick-input, the `pickString`
quick-pick, and the execution of a `command`-type input are all queued),
so at most one such prompt is in flight at any time. -/
theorem C3_prompts_single_flight (env : ResolverEnv) (st : Store)
    (folder : Option Folder) (config : Config) (sectionName : Option String)
    (vm : Option (List (String × String))) (target : Option ConfigurationTarget)
    (e : Event) (q : Bool) (p : UIPrompt)
    (he : e ∈ (resolveWithInteractionReplace env st folder config sectionName
        vm target).2.2)
    (hp : e = Event.prompt q p) : q = true := by
  subst hp
  have hq : eventQueued (Event.prompt q p) = true := by
    have hint := resolveWithInteraction_events_queued env st folder
      (env.resolveAnyAsync folder config none) sectionName vm target
    unfold resolveWithInteractionReplace at he
    dsimp only at he
    rcases hw : resolveWithInteraction env st folder
        (env.resolveAnyAsync folder config none) sectionName vm target
      with ⟨res, st2, evs2⟩
    rw [hw] at he
    rw [hw] at hint
    dsimp only at hint
    cases res with
    | error e' =>
      dsimp only at he
      rcases List.mem_cons.mp he with h | h
      · rw [h]; rfl
      · exact hint _ h
    | ok o =>
      cases o with
      | none =>
        dsimp only at he
        rcases List.mem_cons.mp he with h | h
        · rw [h]; rfl
        · exact hint _ h
      | some m =>
        dsimp only at he
        split at he
        · rcases List.mem_cons.mp he with h | h
          · rw [h]; rfl
          · rcases List.mem_append.mp h with h2 | h2
            · exact hint _ h2
            · rw [List.mem_singleton.mp h2]; rfl
        · rcases List.mem_cons.mp he with h | h
          · rw [h]; rfl
          · exact hint _ h
  simpa [eventQueued] using hq

/-- C3 witness: the concrete fixture issues a prompt event, and it is
queued. -/
theorem C3_prompts_single_flight_witness :
    Event.prompt true
        (UIPrompt.promptString ⟨some "desc", true, none, false⟩)
      ∈ (resolveWithInteractionReplace wEnv wStore none wConfig (some "launch")
          none none).2.2 ∧
    true = true :=
  ⟨by decide,
   C3_prompts_single_flight wEnv wStore none wConfig (some "launch") none none
      (Event.prompt true (UIPrompt.promptString ⟨some "desc", true, none, false⟩))
      true (UIPrompt.promptString ⟨some "desc", true, none, false⟩)
      (by decide) rfl⟩

/-- C4 (amended): for a `promptString` input variable, the value most
recently entered for the same `section.variable` key, read from the
persisted LRU cache, is pre-filled as the initial value of the prompt; an
explicit NON-EMPTY `default` attribute takes precedence over the cached
value (an empty-string `default` is falsy for `if (info.default)` and
leaves the cached value in place); and whenever the user submits a
string, it is written back to the cache before being returned, so a
subsequent read of the key yields it. -/
theorem C4_promptString_lru_amended (env : ResolverEnv) (st : Store)
    (sectionName varName : String) (infos : List ConfiguredInput)
    (info : ConfiguredInput) (desc : String)
    (hfind : (infos.filter (fun i => i.id = varName)).getLast? = some info)
    (htype : info.type = "promptString")
    (hdesc : info.description = some desc) :
    ∃ opts : InputOptions,
      (showUserInput env st sectionName varName (some infos)).2.2
        = [Event.prompt true (UIPrompt.promptString opts)] ∧
      opts.value = (match info.default with
        | some d => if d ≠ "" then some d
            else (readInputLru st).get (sectionName ++ "." ++ varName)
        | none => (readInputLru st).get (sectionName ++ "." ++ varName)) ∧
      (∀ d, info.default = some d → d ≠ "" → opts.value = some d) ∧
      (info.default = none →
        opts.value = (readInputLru st).get (sectionName ++ "." ++ varName)) ∧
      (∀ s, env.inputResponse opts = some s →
        (showUserInput env st sectionName varName (some infos)).1
            = .ok (.str s) ∧
        ((showUserInput env st sectionName varName (some infos)).2.1)
            LAST_INPUT_STORAGE_KEY
          = some (((readInputLru st).set (sectionName ++ "." ++ varName)
              s).toJSON) ∧
        (readInputLru
            ((showUserInput env st sectionName varName (some infos)).2.1)).get
              (sectionName ++ "." ++ varName) = some s) ∧
      (env.inputResponse opts = none →
        (showUserInput env st sectionName varName (some infos)).1
            = .ok .undef ∧
        (showUserInput env st sectionName varName (some infos)).2.1 = st) := by
  unfold showUserInput
  dsimp only
  rw [hfind]
  dsimp only
  rw [if_pos htype, hdesc]
  dsimp only
  refine ⟨⟨some desc, true,
    (match info.default with
      | some d => if d ≠ "" then some d
          else (readInputLru st).get (sectionName ++ "." ++ varName)
      | none => (readInputLru st).get (sectionName ++ "." ++ varName)),
    info.password = some true⟩, ?_, rfl, ?_, ?_, ?_, ?_⟩
  · cases env.inputResponse _ <;> rfl
  · intro d hd hne
    rw [hd]
    simp [hne]
  · intro hd
    rw [hd]
  · intro s hs
    rw [hs]
    refine ⟨rfl, by simp [storeInputLru], ?_⟩
    exact readInputLru_store_get st (sectionName ++ "." ++ varName) s
  · intro hs
    rw [hs]
    exact ⟨rfl, rfl⟩

/-- C4 counterexample: with an explicit (empty-string) `default`
attribute on the input and a cached value for `launch.login`, the prompt
pre-fills the cached value, not the default, so the explicit `default`
attribute does not take precedence over the cached value. -/
theorem C4_counterexample :
    c4Info.default = some "" ∧
    (showUserInput wEnv c4Store "launch" "login" (some [c4Info])).2.2
      = [Event.prompt true (UIPrompt.promptString
          ⟨some "Enter", true, some "cached", false⟩)] ∧
    (some "cached" : Option String) ≠ some "" :=
  ⟨rfl, by decide, by decide⟩

/-- C4 witness: the amended theorem applied at the concrete fixture. -/
theorem C4_promptString_lru_amended_witness :
    ∃ opts : InputOptions,
      (showUserInput wEnv c4Store "launch" "login" (some [c4Info])).2.2
        = [Event.prompt true (UIPrompt.promptString opts)] ∧
      opts.value = (match c4Info.default with
        | some d => if d ≠ "" then some d
            else (readInputLru c4Store).get ("launch" ++ "." ++ "login")
        | none => (readInputLru c4Store).get ("launch" ++ "." ++ "login")) ∧
      (∀ d, c4Info.default = some d → d ≠ "" → opts.value = some d) ∧
      (c4Info.default = none →
        opts.value = (readInputLru c4Store).get ("launch" ++ "." ++ "login")) ∧
      (∀ s, wEnv.inputResponse opts = some s →
        (showUserInput wEnv c4Store "launch" "login" (some [c4Info])).1
            = .ok (.str s) ∧
        ((showUserInput wEnv c4Store "launch" "login" (some [c4Info])).2.1)
            LAST_INPUT_STORAGE_KEY
          = some (((readInputLru c4Store).set ("launch" ++ "." ++ "login")
              s).toJSON) ∧
        (readInputLru
            ((showUserInput wEnv c4Store "launch" "login"
              (some [c4Info])).2.1)).get
              ("launch" ++ "." ++ "login") = some s) ∧
      (wEnv.inputResponse opts = none →
        (showUserInput wEnv c4Store "launch" "login" (some [c4Info])).1
            = .ok .undef ∧
        (showUserInput wEnv c4Store "launch" "login" (some [c4Info])).2.1
          = c4Store) :=
  C4_promptString_lru_amended wEnv c4Store "launch" "login" [c4Info] c4Info
    "Enter" (by decide) rfl rfl

/-- C9: when an input variable's id does not appear in the resolved
`inputs` section, or no `inputs` section can be resolved at all
(`inputInfos` is `undefined`), or the configured input has an unknown
type or is missing a required attribute (`description` for
`promptString`/`pickString`, `options` for `pickString`, `command` for a
`command`-typed input), `showUserInput` throws a `VariableError` of kind
`Input` instead of returning a value; and `resolveWithInteraction`
rejects with that same error when its first interactive variable is such
an input variable. -/
theorem C9_undefined_input_throws :
    (∀ (env : ResolverEnv) (st : Store) (sectionName varName : String),
      ∃ m, (showUserInput env st sectionName varName none).1
        = .error ⟨.input, m⟩) ∧
    (∀ (env : ResolverEnv) (st : Store) (sectionName varName : String)
        (infos : List ConfiguredInput),
      (∀ i ∈ infos, ¬ (i.id = varName)) →
      ∃ m, (showUserInput env st sectionName varName (some infos)).1
        = .error ⟨.input, m⟩) ∧
    (∀ (env : ResolverEnv) (st : Store) (sectionName varName : String)
        (infos : List ConfiguredInput) (info : ConfiguredInput),
      (infos.filter (fun i => i.id = varName)).getLast? = some info →
      ¬ info.type = "promptString" → ¬ info.type = "pickString" →
      ¬ info.type = "command" →
      ∃ m, (showUserInput env st sectionName varName (some infos)).1
        = .error ⟨.input, m⟩) ∧
    (∀ (env : ResolverEnv) (st : Store) (sectionName varName : String)
        (infos : List ConfiguredInput) (info : ConfiguredInput),
      (infos.filter (fun i => i.id = varName)).getLast? = some info →
      (info.type = "promptString" ∨ info.type = "pickString") →
      info.description = none →
      ∃ m, (showUserInput env st sectionName varName (some infos)).1
        = .error ⟨.input, m⟩) ∧
    (∀ (env : ResolverEnv) (st : Store) (sectionName varName : String)
        (infos : List ConfiguredInput) (info : ConfiguredInput),
      (infos.filter (fun i => i.id = varName)).getLast? = some info →
      info.type = "pickString" → info.options = none →
      ∃ m, (showUserInput env st sectionName varName (some infos)).1
        = .error ⟨.input, m⟩) ∧
    (∀ (env : ResolverEnv) (st : Store) (sectionName varName : String)
        (infos : List ConfiguredInput) (info : ConfiguredInput),
      (infos.filter (fun i => i.id = varName)).getLast? = some info →
      info.type = "command" → info.command = none →
      ∃ m, (showUserInput env st sectionName varName (some infos)).1
        = .error ⟨.input, m⟩) ∧
    (∀ (env : ResolverEnv) (st : Store) (folder : Option Folder)
        (config : Config) (sectionName : Option String)
        (vm : Option (List (String × String)))
        (target : Option ConfigurationTarget) (r : Replacement)
        (rest : List Replacement) (e : VariableError),
      interactiveVars config = r :: rest →
      r.name = "input" →
      (showUserInput env st (sectionName.getD "undefined") r.arg
          (resolveInputs env folder sectionName target)).1 = .error e →
      (resolveWithInteraction env st folder config sectionName vm target).1
        = .error e) := by
  refine ⟨?_, ?_, ?_, ?_, ?_, ?_, ?_⟩
  · intro env st sectionName varName
    exact ⟨_, rfl⟩
  · intro env st sectionName varName infos h
    unfold showUserInput
    dsimp only
    have hfil : infos.filter (fun i => i.id = varName) = [] := by
      rw [List.filter_eq_nil_iff]
      intro a ha
      simpa using h a ha
    rw [hfil]
    exact ⟨_, rfl⟩
  · intro env st sectionName varName infos info hfind h1 h2 h3
    unfold showUserInput
    dsimp only
    rw [hfind]
    dsimp only
    rw [if_neg h1, if_neg h2, if_neg h3]
    exact ⟨_, rfl⟩
  · intro env st sectionName varName infos info hfind htype hdesc
    unfold showUserInput
    dsimp only
    rw [hfind]
    dsimp only
    rcases htype with ht | ht
    · rw [if_pos ht, hdesc]
      exact ⟨_, rfl⟩
    · rw [if_neg (by rw [ht]; decide), if_pos ht, hdesc]
      exact ⟨_, rfl⟩
  · intro env st sectionName varName infos info hfind htype hopts
    unfold showUserInput
    dsimp only
    rw [hfind]
    dsimp only
    rw [if_neg (by rw [htype]; decide), if_pos htype]
    cases hdesc : info.description with
    | none => exact ⟨_, rfl⟩
    | some d =>
      rw [hopts]
      exact ⟨_, rfl⟩
  · intro env st sectionName varName infos info hfind htype hcmd
    unfold showUserInput
    dsimp only
    rw [hfind]
    dsimp only
    rw [if_neg (by rw [htype]; decide), if_neg (by rw [htype]; decide),
      if_pos htype, hcmd]
    exact ⟨_, rfl⟩
  · intro env st folder config sectionName vm target r rest e hvars hname hshow
    have hone : resolveOneVariable env folder sectionName target config vm st r
        = (.error e,
           (showUserInput env st (sectionName.getD "undefined") r.arg
              (resolveInputs env folder sectionName target)).2.1,
           (showUserInput env st (sectionName.getD "undefined") r.arg
              (resolveInputs env folder sectionName target)).2.2) := by
      unfold resolveOneVariable
      rw [if_neg (by rw [hname]; decide), if_pos hname]
      dsimp only
      rcases hw : showUserInput env st (sectionName.getD "undefined") r.arg
          (resolveInputs env folder sectionName target) with ⟨res, st1, ev1⟩
      rw [hw] at hshow
      dsimp only at hshow
      subst hshow
      rfl
    unfold resolveWithInteraction
    dsimp only
    rw [hvars, if_neg (by simp)]
    unfold interactionLoop
    rw [hone]

/-- C9 witness: each error condition applied at a concrete input, and the
rejection of `resolveWithInteraction` on a configuration whose first
variable is an input with no resolvable `inputs` section. -/
theorem C9_undefined_input_throws_witness :
    (∃ m, (showUserInput wEnv wStore "launch" "who" none).1
      = .error ⟨.input, m⟩) ∧
    (∃ m, (showUserInput wEnv wStore "launch" "nope" (some [wInfo])).1
      = .error ⟨.input, m⟩) ∧
    (∃ m, (showUserInput wEnv wStore "launch" "x" (some [c9Bad])).1
      = .error ⟨.input, m⟩) ∧
    (∃ m, (showUserInput wEnv wStore "launch" "x" (some [c9NoDesc])).1
      = .error ⟨.input, m⟩) ∧
    (∃ m, (showUserInput wEnv wStore "launch" "x" (some [c9Pick])).1
      = .error ⟨.input, m⟩) ∧
    (∃ m, (showUserInput wEnv wStore "launch" "x" (some [c9Cmd])).1
      = .error ⟨.input, m⟩) ∧
    (resolveWithInteraction wEnvNoInputs wStore none wConfig (some "launch")
        none none).1
      = .error ⟨.input, "must be defined in an inputs section"⟩ :=
  ⟨C9_undefined_input_throws.1 wEnv wStore "launch" "who",
   C9_undefined_input_throws.2.1 wEnv wStore "launch" "nope" [wInfo]
     (by decide),
   C9_undefined_input_throws.2.2.1 wEnv wStore "launch" "x" [c9Bad] c9Bad
     (by decide) (by decide) (by decide) (by decide),
   C9_undefined_input_throws.2.2.2.1 wEnv wStore "launch" "x" [c9NoDesc]
     c9NoDesc (by decide) (Or.inl rfl) rfl,
   C9_undefined_input_throws.2.2.2.2.1 wEnv wStore "launch" "x" [c9Pick]
     c9Pick (by decide) rfl rfl,
   C9_undefined_input_throws.2.2.2.2.2.1 wEnv wStore "launch" "x" [c9Cmd]
     c9Cmd (by decide) rfl rfl,
   C9_undefined_input_throws.2.2.2.2.2.2 wEnvNoInputs wStore none wConfig
     (some "launch") none none (Replacement.mk "input" "who")
     [Replacement.mk "command" "doit"]
     ⟨.input, "must be defined in an inputs section"⟩ (by decide) rfl
     (by rfl)⟩

end VSCode
